import Mathlib

/-!
Verification of the bem-smoke test harness.

The development shallowly embeds the TechTest session object
(tech-test.js, both the primary and the variant implementation),
the StubLevel class (stub-level.js), and the testTech entry point
(index.js).  JavaScript objects used as string-keyed maps are
embedded as association lists with JavaScript property-assignment
semantics (existing key keeps its position, new key is appended).
Promise chains built by TechTest._enqueue are embedded as resolved
promises carrying the trace of executed chain items together with
the final outcome; scheduling is deterministic and single-threaded,
so a chain's eventual behaviour is a pure function of the enqueued
items and the initial virtual-filesystem state.  The virtual
filesystem itself (q-io/fs-mock plus the local fs adapter) is not
part of the repository's sources; its file-level operations are
modelled from the specification's contract (existence, read,
last-modified, and the open/close touch affordance).
-/

/-! ### Association lists with JavaScript object semantics -/

/-- Lookup of a property on a string-keyed JavaScript object
(first matching key wins). -/
def assocLookup {α : Type} : List (String × α) → String → Option α
  | [], _ => none
  | (k, v) :: rest, key => if k = key then some v else assocLookup rest key

/-- JavaScript property assignment obj[key] = v: an existing key keeps
its position and is overwritten, a new key is appended at the end. -/
def assocSet {α : Type} : List (String × α) → String → α → List (String × α)
  | [], key, v => [(key, v)]
  | (k, w) :: rest, key, v =>
      if k = key then (key, v) :: rest else (k, w) :: assocSet rest key v

deriving instance DecidableEq for Except

/-! ### The deferred promise chain (TechTest._enqueue / TechTest.notify)

A chain item is the closure passed to _enqueue: it consumes the
session state left by the previous item and either produces a new
state or rejects with an error.  A resolved promise records which
items have executed (by their enqueue position, in execution order)
and the chain's outcome. -/

/-- A deferred operation appended to the chain by an action, an
assertion, touchFile or asserts. -/
def ChainItem (ε σ : Type) : Type := σ → Except ε σ

/-- A settled promise chain: the trace of chain items that actually
started executing, in order, and the final outcome. -/
structure ResolvedPromise (ε σ : Type) where
  trace : List Nat
  result : Except ε σ
deriving DecidableEq

/-- p.then(call): the next item runs only if the previous promise was
fulfilled; a rejection passes through untouched and the item never runs. -/
def promiseThen {ε σ : Type} (p : ResolvedPromise ε σ) (idx : Nat)
    (call : ChainItem ε σ) : ResolvedPromise ε σ :=
  match p.result with
  | Except.ok s => ⟨p.trace ++ [idx], call s⟩
  | Except.error e => ⟨p.trace, Except.error e⟩

/-- TechTest._enqueue: if there is no promise yet the call is invoked
immediately on the initial state, otherwise it is chained with then. -/
def enqueue {ε σ : Type} (pr : Option (ResolvedPromise ε σ)) (s0 : σ) (idx : Nat)
    (call : ChainItem ε σ) : Option (ResolvedPromise ε σ) :=
  match pr with
  | none => some ⟨[idx], call s0⟩
  | some p => some (promiseThen p idx call)

/-- The promise accumulated by a session that called _enqueue once per
item of the list, in list order, starting from no promise. -/
def buildChainAux {ε σ : Type} (pr : Option (ResolvedPromise ε σ)) (s0 : σ) (i : Nat) :
    List (ChainItem ε σ) → Option (ResolvedPromise ε σ)
  | [] => pr
  | c :: cs => buildChainAux (enqueue pr s0 i c) s0 (i + 1) cs

/-- The session's final promise after enqueueing every item of the list. -/
def buildChain {ε σ : Type} (items : List (ChainItem ε σ)) (s0 : σ) :
    Option (ResolvedPromise ε σ) :=
  buildChainAux none s0 0 items

/-- The argument passed to notify's completion callback. -/
inductive NotifyArg (ε σ : Type) : Type
  | success (s : σ)
  | failure (e : ε)
deriving DecidableEq

/-- TechTest.notify: this._promise.then(done, done) invokes the
completion callback once, with the fulfilment value on success and
with the rejection reason on failure.  The list collects the calls
made to the callback. -/
def notifyCalls {ε σ : Type} : Except ε σ → List (NotifyArg ε σ)
  | Except.ok s => [NotifyArg.success s]
  | Except.error e => [NotifyArg.failure e]

/-- Follows the specification's words, for comparison with the
embedded promise accumulation: operations execute strictly in
declaration order, each starting only after the previous one
completed, and the first failure skips every later operation and
becomes the chain's outcome. -/
def specOrderedRun {ε σ : Type} (s : σ) (i : Nat) :
    List (ChainItem ε σ) → ResolvedPromise ε σ
  | [] => ⟨[], Except.ok s⟩
  | c :: cs =>
      match c s with
      | Except.ok s2 =>
          let r := specOrderedRun s2 (i + 1) cs
          ⟨i :: r.trace, r.result⟩
      | Except.error e => ⟨[i], Except.error e⟩

/-- Continuing an already settled promise with further items: if the
promise was fulfilled the items run sequentially from its state, if it
was rejected nothing more runs. -/
def afterPromise {ε σ : Type} (p : ResolvedPromise ε σ) (i : Nat)
    (cs : List (ChainItem ε σ)) : ResolvedPromise ε σ :=
  match p.result with
  | Except.ok s =>
      ⟨p.trace ++ (specOrderedRun s i cs).trace, (specOrderedRun s i cs).result⟩
  | Except.error _ => p

/-- Sample chain item used to exhibit the chain behaviour on a
concrete session. -/
def cDemo0 : ChainItem Nat Nat := fun n => Except.ok (n + 1)

/-- Sample failing chain item. -/
def cDemo1 : ChainItem Nat Nat := fun _ => Except.error 42

/-- Sample chain item enqueued after a failure; it must never run. -/
def cDemo2 : ChainItem Nat Nat := fun n => Except.ok (n + 100)

/-! ### The virtual filesystem (file-level view) -/

/-- Modelled from the spec: a file node of the virtual filesystem,
carrying its content and its last-modified timestamp.  The VFS library
itself (q-io/fs-mock and the repository's fs adapter) is not under the
sources; only the file-level contract of §4.1 is needed here. -/
structure VFile where
  content : String
  mtime : Int
deriving DecidableEq

/-- The file-level view of the virtual filesystem: path → file node. -/
abbrev Vfs : Type := List (String × VFile)

/-- Errors produced by deferred chain items: a missing path, or a
failed chai assertion carrying its message. -/
inductive FsErr : Type
  | notFound
  | assertionFailed (msg : String)
deriving DecidableEq

/-- Modelled from the spec: lastModified(path) yields the stored
timestamp and fails with NotFoundError on an absent path. -/
def lastModified (fs : Vfs) (p : String) : Except FsErr Int :=
  match assocLookup fs p with
  | some f => Except.ok f.mtime
  | none => Except.error FsErr.notFound

/-- Modelled from the spec: read(path) yields the stored content and
fails with NotFoundError on an absent path. -/
def vfsRead (fs : Vfs) (p : String) : Except FsErr String :=
  match assocLookup fs p with
  | some f => Except.ok f.content
  | none => Except.error FsErr.notFound

/-- Modelled from the spec: the touch affordance — open(path, w+)
followed by close finalizes a last-modified update without altering
the content; against an absent path it is a NotFoundError (§7). -/
def vfsTouch (fs : Vfs) (p : String) (now : Int) : Except FsErr Vfs :=
  match assocLookup fs p with
  | some f => Except.ok (assocSet fs p ⟨f.content, now⟩)
  | none => Except.error FsErr.notFound

/-! ### Chain items enqueued by the TechTest methods -/

/-- The closure TechTest.touchFile passes to _enqueue:
self._fs.open(path, w+) followed by stream.close(). -/
def touchFileItem (path : String) (now : Int) : ChainItem FsErr Vfs :=
  fun fs => vfsTouch fs path now

/-- TechTest.touchFile acting on the session's promise field. -/
def touchFile (pr : Option (ResolvedPromise FsErr Vfs)) (s0 : Vfs) (i : Nat)
    (path : String) (now : Int) : Option (ResolvedPromise FsErr Vfs) :=
  enqueue pr s0 i (touchFileItem path now)

/-- The closure TechTest.writesToFile passes to _enqueue: assert that
lastModified(path).getTime() is strictly greater than the recorded
test start time. -/
def writesToFileItem (path : String) (start : Int) : ChainItem FsErr Vfs :=
  fun fs =>
    match lastModified fs path with
    | Except.ok t =>
        if t > start then Except.ok fs
        else Except.error (FsErr.assertionFailed
          ("Expected file " ++ path ++ " to be modifed"))
    | Except.error e => Except.error e

/-- The closure TechTest.notWritesToFile passes to _enqueue: assert
that lastModified(path).getTime() is at or before the recorded test
start time. -/
def notWritesToFileItem (path : String) (start : Int) : ChainItem FsErr Vfs :=
  fun fs =>
    match lastModified fs path with
    | Except.ok t =>
        if t ≤ start then Except.ok fs
        else Except.error (FsErr.assertionFailed
          ("Expected file " ++ path ++ " not to be modifed"))
    | Except.error e => Except.error e

/-- JavaScript Array.prototype.join with a newline separator, as
invoked by TechTest.withContent on its arguments object. -/
def joinArgs : List String → String
  | [] => ""
  | [x] => x
  | x :: y :: rest => x ++ "\n" ++ joinArgs (y :: rest)

/-- The expected-content string computed by TechTest.withContent: with
more than one argument the arguments are joined with a newline,
otherwise the single argument is used as given. -/
def withContentExpected (args : List String) : String :=
  if args.length > 1 then joinArgs args else args.headD ""

/-- The closure TechTest.withContent passes to _enqueue: assert that
the file recorded by the last producesFile call reads back exactly the
expected content. -/
def withContentItem (fileName expected : String) : ChainItem FsErr Vfs :=
  fun fs =>
    match vfsRead fs fileName with
    | Except.ok c =>
        if c = expected then Except.ok fs
        else Except.error (FsErr.assertionFailed
          ("expected file " ++ fileName ++ " to have content " ++ expected))
    | Except.error e => Except.error e

/-- TechTest.withContent acting on the session's promise field, given
the file name recorded by the last producesFile call. -/
def withContentCall (lastFileName : String) (pr : Option (ResolvedPromise FsErr Vfs))
    (s0 : Vfs) (i : Nat) (args : List String) : Option (ResolvedPromise FsErr Vfs) :=
  enqueue pr s0 i (withContentItem lastFileName (withContentExpected args))

/-- Sample virtual filesystem used by the concrete witnesses. -/
def demoFs : Vfs := [("a.css", ⟨"body", 1⟩), ("b.css", ⟨"p", 5⟩)]

/-! ### Mock tables and the reserved-identifier guard -/

/-- A JavaScript value as stored in a mock table. -/
inductive JsVal : Type
  | vUndefined
  | vNull
  | vBool (b : Bool)
  | vNum (n : Int)
  | vStr (s : String)
  | vObj (id : Nat)
deriving DecidableEq

/-- JavaScript truthiness of a value (NaN is not modelled). -/
def JsVal.truthy : JsVal → Bool
  | JsVal.vUndefined => false
  | JsVal.vNull => false
  | JsVal.vBool b => b
  | JsVal.vNum n => decide (n ≠ 0)
  | JsVal.vStr s => decide (s ≠ "")
  | JsVal.vObj _ => true

/-- JavaScript property access modules[id]: undefined when absent. -/
def jsGet (o : List (String × JsVal)) (k : String) : JsVal :=
  (assocLookup o k).getD JsVal.vUndefined

/-- The merge helper of tech-test.js: copies obj1's keys and then
obj2's keys into a fresh object, obj2 winning on clashes. -/
def jsMerge (o1 o2 : List (String × JsVal)) : List (String × JsVal) :=
  o2.foldl (fun acc kv => assocSet acc kv.1 kv.2)
    (o1.foldl (fun acc kv => assocSet acc kv.1 kv.2) [])

/-- The reserved-identifier guard of TechTest.withMockedModules, a
truthiness test of the three filesystem properties of the argument. -/
def reservedGuard (modules : List (String × JsVal)) : Bool :=
  (jsGet modules "fs").truthy || (jsGet modules "q-fs").truthy ||
    (jsGet modules "q-io/fs").truthy

/-- TechTest.withMockedModules acting on the session's accumulated
mock table: throws when the guard trips, leaving the table untouched
(the returned message is the thrown error), otherwise merges the new
modules into the table. -/
def withMockedModules (mockedModules modules : List (String × JsVal)) :
    List (String × JsVal) × Option String :=
  if reservedGuard modules then
    (mockedModules, some
      "\"fs\", \"q-fs\" and \"q-io/fs\" modules are already mocked. Use .withSourceFiles method")
  else (jsMerge mockedModules modules, none)

/-- The claim's words: the mock table contains one of the reserved
filesystem identifiers fs, q-fs or q-io/fs among its keys. -/
def containsReservedId (modules : List (String × JsVal)) : Bool :=
  (assocLookup modules "fs").isSome || (assocLookup modules "q-fs").isSome ||
    (assocLookup modules "q-io/fs").isSome

/-! ### Lazy materialization (TechTest._load and its variant) -/

/-- The session fields touched by materialization.  Constructed
collaborators (the filesystem mock, each stub level, the bem context,
and the technology resolved from the context) are tracked by fresh
instance identifiers drawn from nextId, so that reuse versus
reconstruction of an instance is observable. -/
structure MatSession where
  techName : String
  modulePath : String
  levelPaths : Option (List String)
  techMap : Option (List (String × String))
  fs : Option Nat
  levels : Option (List (Nat × String))
  context : Option Nat
  tech : Option (Nat × String)
  nextId : Nat
deriving DecidableEq

/-- The primary TechTest._load with _loadLevels, _loadContext and
_loadTech inlined: this._fs is memoized with a truthiness-or, but the
stub levels, the context and the technology are re-created on every
call. -/
def load1 (s : MatSession) : MatSession :=
  let fsId := match s.fs with | some i => i | none => s.nextId
  let n1 := match s.fs with | some _ => s.nextId | none => s.nextId + 1
  let lps := s.levelPaths.getD ["/"]
  let tm := assocSet (s.techMap.getD []) s.techName s.modulePath
  let lvls := lps.enum.map fun pr => (n1 + pr.1, pr.2)
  let ctxId := n1 + lps.length
  { s with fs := some fsId, levelPaths := some lps, techMap := some tm,
           levels := some lvls, context := some ctxId,
           tech := some (ctxId, s.techName), nextId := ctxId + 1 }

/-- The body of the variant TechTest._load past its early-return
guard: every collaborator is constructed afresh. -/
def loadAll2 (s : MatSession) : MatSession :=
  let fsId := s.nextId
  let n1 := s.nextId + 1
  let lps := s.levelPaths.getD ["/"]
  let tm := assocSet (s.techMap.getD []) s.techName s.modulePath
  let lvls := lps.enum.map fun pr => (n1 + pr.1, pr.2)
  let ctxId := n1 + lps.length
  { s with fs := some fsId, levelPaths := some lps, techMap := some tm,
           levels := some lvls, context := some ctxId,
           tech := some (ctxId, s.techName), nextId := ctxId + 1 }

/-- The variant TechTest._load: if (this._tech) return, else load
everything. -/
def load2 (s : MatSession) : MatSession :=
  if s.tech.isSome then s else loadAll2 s

/-- A freshly constructed session, as returned by testTech. -/
def demoSession : MatSession :=
  ⟨"css", "/tech/css.js", none, none, none, none, none, none, 0⟩

/-! ### Stub levels and the tech registry -/

/-- StubLevel (stub-level.js): the base Level constructor is invoked
with the level path and a projectRoot option pinned to the filesystem
root, and the caller-supplied tech map is stored.  The base Level
class is an external collaborator; per its documented use here it
stores the path and the pinned project root. -/
structure StubLevel where
  path : String
  projectRoot : String
  techMap : List (String × String)
deriving DecidableEq

/-- The StubLevel constructor: this.__base(path, projectRoot pinned to
the root) and this._techMap = techMap. -/
def mkStubLevel (path : String) (techMap : List (String × String)) : StubLevel :=
  ⟨path, "/", techMap⟩

/-- StubLevel.getTechs: returns exactly the stored tech map. -/
def StubLevel.getTechs (l : StubLevel) : List (String × String) := l.techMap

/-- The tech registry produced by TechTest._loadLevels: the
author-supplied map (or an empty one) with the technology under test
assigned to its module path. -/
def loadLevelsMap (techMap : Option (List (String × String)))
    (techName modulePath : String) : List (String × String) :=
  assocSet (techMap.getD []) techName modulePath

/-- The stub levels produced by TechTest._loadLevels: the configured
level paths (or the root when none were configured), one StubLevel per
path, each holding the session's tech registry. -/
def loadLevels (levelPaths : Option (List String))
    (tm : List (String × String)) : List StubLevel :=
  (levelPaths.getD ["/"]).map fun p => mkStubLevel p tm

/-- The technology module paths handed to the bem context by
TechTest._loadContext: the values of the session's tech registry. -/
def contextTechPaths (tm : List (String × String)) : List String :=
  tm.map Prod.snd

/-! ### The testTech entry point (index.js) -/

/-- Modelled from the spec: PATH.basename — the final path segment,
the characters after the last path separator. -/
def basename (p : String) : String :=
  String.mk ((p.data.reverse.takeWhile (fun c => c ≠ '/')).reverse)

/-- Modelled from the spec: the bem utility stripping a module
extension (js or coffee) from a file name. -/
def stripModuleExt (s : String) : String :=
  if ".coffee".data.isSuffixOf s.data then String.mk (s.data.take (s.data.length - 7))
  else if ".js".data.isSuffixOf s.data then String.mk (s.data.take (s.data.length - 3))
  else s

/-- The pair of constructor arguments handed to TechTest. -/
structure TechTestInit where
  techName : String
  modulePath : String
deriving DecidableEq

/-- The argument lists accepted by exports.testTech. -/
inductive TestTechArgs : Type
  | one (modulePath : String)
  | two (techName modulePath : String)

/-- exports.testTech: with a single argument the argument is the
module path and the technology name is derived from its basename with
the module extension stripped; with two arguments both are used as
given. -/
def testTech : TestTechArgs → TechTestInit
  | TestTechArgs.one mp => ⟨stripModuleExt (basename mp), mp⟩
  | TestTechArgs.two n mp => ⟨n, mp⟩

/-! ### Theorems -/

theorem assocLookup_set_self {α : Type} (m : List (String × α)) (k : String) (v : α) :
    assocLookup (assocSet m k v) k = some v := by
  induction m with
  | nil => simp [assocSet, assocLookup]
  | cons kv rest ih =>
      obtain ⟨k', w⟩ := kv
      by_cases h : k' = k
      · simp [assocSet, assocLookup, h]
      · simp [assocSet, assocLookup, h, ih]

theorem assocLookup_set_other {α : Type} (m : List (String × α)) (k q : String) (v : α)
    (hq : q ≠ k) : assocLookup (assocSet m k v) q = assocLookup m q := by
  induction m with
  | nil => simp [assocSet, assocLookup, Ne.symm hq]
  | cons kv rest ih =>
      obtain ⟨k', w⟩ := kv
      by_cases h : k' = k
      · subst h
        simp [assocSet, assocLookup, Ne.symm hq]
      · simp [assocSet, assocLookup, h, ih]

theorem assocLookup_mem_values {α : Type} (m : List (String × α)) (k : String) (v : α)
    (h : assocLookup m k = some v) : v ∈ m.map Prod.snd := by
  induction m with
  | nil => simp [assocLookup] at h
  | cons kv rest ih =>
      obtain ⟨k', w⟩ := kv
      by_cases hk : k' = k
      · simp [assocLookup, hk] at h
        simp [h]
      · simp [assocLookup, hk] at h
        simp [ih h]

theorem string_append_assoc (a b c : String) : (a ++ b) ++ c = a ++ (b ++ c) := by
  apply String.ext
  simp [String.data_append, List.append_assoc]

theorem buildChainAux_some {ε σ : Type} (cs : List (ChainItem ε σ)) :
    ∀ (p : ResolvedPromise ε σ) (s0 : σ) (i : Nat),
      buildChainAux (some p) s0 i cs = some (afterPromise p i cs) := by
  induction cs with
  | nil =>
      intro p s0 i
      obtain ⟨tr, r⟩ := p
      cases r <;> simp [buildChainAux, afterPromise, specOrderedRun]
  | cons c cs ih =>
      intro p s0 i
      obtain ⟨tr, r⟩ := p
      cases r with
      | error e =>
          simp [buildChainAux, enqueue, promiseThen, ih, afterPromise]
      | ok s =>
          simp only [buildChainAux, enqueue, promiseThen, ih]
          cases hc : c s with
          | ok s2 => simp [afterPromise, specOrderedRun, hc]
          | error e => simp [afterPromise, specOrderedRun, hc]

/-- C1: for every session, the deferred chain operations execute
strictly in the order their methods were called, each starting only
after the previous one completed; a failing item short-circuits every
later item, and notify's completion callback is invoked exactly once,
with a success indication or the first encountered error. -/
theorem chain_ordered_shortcircuit_notify_once {ε σ : Type}
    (c : ChainItem ε σ) (cs : List (ChainItem ε σ)) (s0 : σ) :
    buildChain (c :: cs) s0 = some (specOrderedRun s0 0 (c :: cs)) ∧
    (notifyCalls (specOrderedRun s0 0 (c :: cs)).result).length = 1 ∧
    (∀ s, (specOrderedRun s0 0 (c :: cs)).result = Except.ok s →
      notifyCalls (specOrderedRun s0 0 (c :: cs)).result = [NotifyArg.success s]) ∧
    (∀ e, (specOrderedRun s0 0 (c :: cs)).result = Except.error e →
      notifyCalls (specOrderedRun s0 0 (c :: cs)).result = [NotifyArg.failure e]) := by
  refine ⟨?_, ?_, ?_, ?_⟩
  · show buildChainAux (enqueue none s0 0 c) s0 1 cs = _
    rw [show enqueue (ε := ε) (σ := σ) none s0 0 c = some ⟨[0], c s0⟩ from rfl]
    rw [buildChainAux_some]
    cases hc : c s0 with
    | ok s2 => simp [afterPromise, specOrderedRun, hc]
    | error e => simp [afterPromise, specOrderedRun, hc]
  · cases h : (specOrderedRun s0 0 (c :: cs)).result <;> simp [notifyCalls]
  · intro s h
    rw [h]
    rfl
  · intro e h
    rw [h]
    rfl

/-- C1 witness: a concrete three-item chain whose second item fails.
Exactly the first two items execute, in order, and the completion
callback receives the first encountered error once. -/
theorem chain_ordered_shortcircuit_notify_once_witness :
    buildChain [cDemo0, cDemo1, cDemo2] 0 = some ⟨[0, 1], Except.error 42⟩ ∧
    notifyCalls (Except.error 42 : Except Nat Nat) = [NotifyArg.failure 42] := by
  have h := chain_ordered_shortcircuit_notify_once cDemo0 [cDemo1, cDemo2] 0
  refine ⟨?_, ?_⟩
  · have h1 := h.1
    have h2 : specOrderedRun 0 0 [cDemo0, cDemo1, cDemo2] =
        (⟨[0, 1], Except.error 42⟩ : ResolvedPromise Nat Nat) := by decide
    rw [h1, h2]
  · exact h.2.2.2 42 (by decide)

/-- C6: touchFile is deferred — appended to the pending chain, running
only after every previously enqueued item completed (and skipped
entirely when an earlier item failed) — and its chain item updates the
file's last-modified time without altering the prior content at the
path, leaving every other path untouched. -/
theorem touchFile_deferred_updates_mtime_keeps_content
    (p : ResolvedPromise FsErr Vfs) (s0 fs : Vfs) (i : Nat)
    (path : String) (now : Int) (f : VFile)
    (hres : p.result = Except.ok fs) (hf : assocLookup fs path = some f) :
    touchFile (some p) s0 i path now = some ⟨p.trace ++ [i], vfsTouch fs path now⟩ ∧
    (∀ tr e, touchFile (some ⟨tr, Except.error e⟩) s0 i path now =
      some ⟨tr, Except.error e⟩) ∧
    ∃ fs2, vfsTouch fs path now = Except.ok fs2 ∧
      assocLookup fs2 path = some ⟨f.content, now⟩ ∧
      ∀ q, q ≠ path → assocLookup fs2 q = assocLookup fs q := by
  refine ⟨?_, ?_, ?_⟩
  · simp [touchFile, enqueue, promiseThen, hres, touchFileItem]
  · intro tr e
    simp [touchFile, enqueue, promiseThen]
  · refine ⟨assocSet fs path ⟨f.content, now⟩, ?_, ?_, ?_⟩
    · simp [vfsTouch, hf]
    · exact assocLookup_set_self fs path ⟨f.content, now⟩
    · intro q hq
      exact assocLookup_set_other fs path q ⟨f.content, now⟩ hq

/-- C6 witness: touching a.css after a completed one-item chain
appends the touch as the next chain item, sets the last-modified time
to 9, and leaves the content and the other file untouched. -/
theorem touchFile_deferred_updates_mtime_keeps_content_witness :
    touchFile (some ⟨[0], Except.ok demoFs⟩) [] 1 "a.css" 9 =
      some ⟨[0, 1], vfsTouch demoFs "a.css" 9⟩ ∧
    ∃ fs2, vfsTouch demoFs "a.css" 9 = Except.ok fs2 ∧
      assocLookup fs2 "a.css" = some ⟨"body", 9⟩ ∧
      ∀ q, q ≠ "a.css" → assocLookup fs2 q = assocLookup demoFs q := by
  have h := touchFile_deferred_updates_mtime_keeps_content
    ⟨[0], Except.ok demoFs⟩ [] demoFs 1 "a.css" 9 ⟨"body", 1⟩ rfl (by decide)
  exact ⟨h.1, h.2.2⟩

/-- C4: for one path and one fixed start time, the strict writesToFile
check and the non-strict notWritesToFile check are mutually exclusive
and exhaustive when the file exists — exactly one succeeds — and both
fail with NotFoundError when the file is absent. -/
theorem writes_notWrites_mutually_exclusive (fs : Vfs) (path : String) (start : Int) :
    (∀ f, assocLookup fs path = some f →
      ((writesToFileItem path start fs = Except.ok fs) ↔
        ¬ (notWritesToFileItem path start fs = Except.ok fs)) ∧
      ((writesToFileItem path start fs = Except.ok fs) ∨
        (notWritesToFileItem path start fs = Except.ok fs))) ∧
    (assocLookup fs path = none →
      writesToFileItem path start fs = Except.error FsErr.notFound ∧
      notWritesToFileItem path start fs = Except.error FsErr.notFound) := by
  constructor
  · intro f hf
    by_cases hgt : start < f.mtime
    · constructor
      · simp [writesToFileItem, notWritesToFileItem, lastModified, hf, hgt, not_le.mpr hgt]
      · left
        simp [writesToFileItem, lastModified, hf, hgt]
    · have hle : f.mtime ≤ start := not_lt.mp hgt
      constructor
      · simp [writesToFileItem, notWritesToFileItem, lastModified, hf, hgt, hle]
      · right
        simp [notWritesToFileItem, lastModified, hf, hle]
  · intro hf
    simp [writesToFileItem, notWritesToFileItem, lastModified, hf]

/-- C4 witness: with b.css last modified at 5 and start time 3,
writesToFile succeeds and notWritesToFile fails; against the absent
path zzz both checks fail with NotFoundError. -/
theorem writes_notWrites_mutually_exclusive_witness :
    (writesToFileItem "b.css" 3 demoFs = Except.ok demoFs) ∧
    ¬ (notWritesToFileItem "b.css" 3 demoFs = Except.ok demoFs) ∧
    writesToFileItem "zzz" 3 demoFs = Except.error FsErr.notFound ∧
    notWritesToFileItem "zzz" 3 demoFs = Except.error FsErr.notFound := by
  have h1 := (writes_notWrites_mutually_exclusive demoFs "b.css" 3).1 ⟨"p", 5⟩ (by decide)
  have h2 := (writes_notWrites_mutually_exclusive demoFs "zzz" 3).2 (by decide)
  have hw : writesToFileItem "b.css" 3 demoFs = Except.ok demoFs := by decide
  exact ⟨hw, h1.1.mp hw, h2.1, h2.2⟩

/-- C5: the multi-argument withContent(a, b, c) enqueues the same
content-equality check as the single-argument call on the newline-join
of the arguments: the arguments are joined with a newline separator,
no trailing newline is added, and the two forms agree for all inputs. -/
theorem withContent_multiarg_equals_joined (f a b c : String) :
    withContentExpected [a, b, c] = a ++ "\n" ++ b ++ "\n" ++ c ∧
    withContentItem f (withContentExpected [a, b, c]) =
      withContentItem f (withContentExpected [a ++ "\n" ++ b ++ "\n" ++ c]) ∧
    ∀ pr s0 i, withContentCall f pr s0 i [a, b, c] =
      withContentCall f pr s0 i [a ++ "\n" ++ b ++ "\n" ++ c] := by
  have hsingle : withContentExpected [a ++ "\n" ++ b ++ "\n" ++ c] =
      a ++ "\n" ++ b ++ "\n" ++ c := by
    simp [withContentExpected]
  have hmulti : withContentExpected [a, b, c] = a ++ "\n" ++ b ++ "\n" ++ c := by
    simp [withContentExpected, joinArgs, string_append_assoc]
  have hitem : withContentItem f (withContentExpected [a, b, c]) =
      withContentItem f (withContentExpected [a ++ "\n" ++ b ++ "\n" ++ c]) := by
    rw [hsingle, hmulti]
  refine ⟨hmulti, hitem, ?_⟩
  intro pr s0 i
  simp only [withContentCall, hitem]

/-- C3 counterexample: the mock table assigning the boolean false to
the reserved identifier fs contains a reserved filesystem identifier,
yet the call raises no error and merges the entry into the table — the
guard tests truthiness, not key presence. -/
theorem withMockedModules_reserved_falsy_counterexample :
    containsReservedId [("fs", JsVal.vBool false)] = true ∧
    withMockedModules [] [("fs", JsVal.vBool false)] =
      ([("fs", JsVal.vBool false)], none) := by decide

/-- C3 amended: withMockedModules raises the configuration error
exactly when the mock table maps one of the reserved identifiers fs,
q-fs or q-io/fs to a truthy value, and then leaves the session's
accumulated mock table unchanged; otherwise — including a reserved
identifier bound to a falsy value — it merges the table in without
error. -/
theorem withMockedModules_reserved_truthy_error
    (acc modules : List (String × JsVal)) :
    (reservedGuard modules = true →
      withMockedModules acc modules = (acc, some
        "\"fs\", \"q-fs\" and \"q-io/fs\" modules are already mocked. Use .withSourceFiles method")) ∧
    (reservedGuard modules = false →
      withMockedModules acc modules = (jsMerge acc modules, none)) := by
  constructor <;> intro h <;> simp [withMockedModules, h]

/-- C3 amended witness: a truthy mock object under fs is rejected and
the accumulated table survives unchanged; a non-reserved table is
merged without error. -/
theorem withMockedModules_reserved_truthy_error_witness :
    withMockedModules [("net", JsVal.vObj 0)] [("fs", JsVal.vObj 1)] =
      ([("net", JsVal.vObj 0)], some
        "\"fs\", \"q-fs\" and \"q-io/fs\" modules are already mocked. Use .withSourceFiles method") ∧
    withMockedModules [] [("net", JsVal.vObj 2)] = ([("net", JsVal.vObj 2)], none) := by
  have h1 := (withMockedModules_reserved_truthy_error
    [("net", JsVal.vObj 0)] [("fs", JsVal.vObj 1)]).1 (by decide)
  have h2 := (withMockedModules_reserved_truthy_error
    [] [("net", JsVal.vObj 2)]).2 (by decide)
  refine ⟨h1, ?_⟩
  rw [h2]
  decide

/-- C2 counterexample: on a fresh session, a second call of the
primary _load reuses the filesystem mock but constructs new stub
levels, a new context and a new technology instance instead of
reusing the already-constructed ones. -/
theorem load_rebuilds_collaborators_counterexample :
    (load1 (load1 demoSession)).fs = (load1 demoSession).fs ∧
    (load1 (load1 demoSession)).levels ≠ (load1 demoSession).levels ∧
    (load1 (load1 demoSession)).context ≠ (load1 demoSession).context ∧
    (load1 (load1 demoSession)).tech ≠ (load1 demoSession).tech := by decide

/-- C2 amended: a second create or build call on the same session
reuses the already-constructed virtual filesystem, but the primary
_load rebuilds the stub levels, the context and the technology
instance on every call; only the variant _load, guarded by an early
return once the technology is resolved, is fully idempotent. -/
theorem load_vfs_reused_variant_idempotent (s : MatSession) :
    (load1 (load1 s)).fs = (load1 s).fs ∧
    (load1 (load1 s)).context ≠ (load1 s).context ∧
    load2 (load2 s) = load2 s := by
  refine ⟨?_, ?_, ?_⟩
  · cases h : s.fs <;> simp [load1, h]
  · cases h : s.fs <;> simp [load1, h] <;> omega
  · by_cases h : s.tech.isSome
    · simp [load2, h]
    · have h2 : (loadAll2 s).tech.isSome = true := by simp [loadAll2]
      simp [load2, h, h2]

/-- C7: after materialization the registry maps the technology under
test to its module path; the auto-inserted entry is merged into the
author-supplied map rather than replacing it, every author entry for a
different technology name is preserved, the same registry is handed to
every stub level, and a preserved entry's module path reaches the
technology path list handed to the context. -/
theorem techRegistry_merged_preserved (tm : List (String × String))
    (n mp k v : String) (lps : Option (List String))
    (hk : k ≠ n) (hv : assocLookup tm k = some v) :
    assocLookup (loadLevelsMap (some tm) n mp) n = some mp ∧
    assocLookup (loadLevelsMap (some tm) n mp) k = some v ∧
    (∀ lvl ∈ loadLevels lps (loadLevelsMap (some tm) n mp),
      lvl.getTechs = loadLevelsMap (some tm) n mp) ∧
    v ∈ contextTechPaths (loadLevelsMap (some tm) n mp) := by
  have h2 : assocLookup (loadLevelsMap (some tm) n mp) k = some v := by
    show assocLookup (assocSet tm n mp) k = some v
    rw [assocLookup_set_other tm n k mp hk]
    exact hv
  refine ⟨?_, h2, ?_, ?_⟩
  · exact assocLookup_set_self tm n mp
  · intro lvl hl
    simp only [loadLevels, List.mem_map] at hl
    obtain ⟨p, _, rfl⟩ := hl
    rfl
  · exact assocLookup_mem_values _ k v h2

/-- C7 witness: with the author-supplied entry base and the technology
css under test, the materialized registry holds both entries, and the
base module path reaches the context's technology path list. -/
theorem techRegistry_merged_preserved_witness :
    assocLookup (loadLevelsMap (some [("base", "/lib/base.js")]) "css" "/tech/css.js")
      "css" = some "/tech/css.js" ∧
    assocLookup (loadLevelsMap (some [("base", "/lib/base.js")]) "css" "/tech/css.js")
      "base" = some "/lib/base.js" ∧
    "/lib/base.js" ∈ contextTechPaths
      (loadLevelsMap (some [("base", "/lib/base.js")]) "css" "/tech/css.js") := by
  have h := techRegistry_merged_preserved [("base", "/lib/base.js")] "css" "/tech/css.js"
    "base" "/lib/base.js" none (by decide) (by decide)
  exact ⟨h.1, h.2.1, h.2.2.2⟩

/-- C8: a StubLevel constructed from any level path and any tech map
has its project root pinned to the filesystem root, and getTechs
returns exactly the caller-supplied tech map. -/
theorem stubLevel_pinned_root_fixed_techs (p : String) (m : List (String × String)) :
    (mkStubLevel p m).projectRoot = "/" ∧ (mkStubLevel p m).getTechs = m :=
  ⟨rfl, rfl⟩

/-- C9: when neither withLevel nor withLevels was called before the
first action, materialization constructs exactly one stub level, whose
path is the root. -/
theorem default_single_root_level (tm : List (String × String)) :
    loadLevels none tm = [mkStubLevel "/" tm] ∧
    ∀ s : MatSession, s.levelPaths = none →
      ∃ i, (load1 s).levels = some [(i, "/")] := by
  constructor
  · rfl
  · intro s hnone
    cases h : s.fs with
    | none =>
        refine ⟨s.nextId + 1, ?_⟩
        simp [load1, h, hnone, List.enum]
    | some j =>
        refine ⟨s.nextId, ?_⟩
        simp [load1, h, hnone, List.enum]

/-- C9 witness: the fresh demo session has no configured levels, so
its materialization builds the single root stub level. -/
theorem default_single_root_level_witness :
    loadLevels none [] = [mkStubLevel "/" []] ∧
    ∃ i, (load1 demoSession).levels = some [(i, "/")] := by
  have h := default_single_root_level []
  exact ⟨h.1, h.2 demoSession rfl⟩

/-- C10: with one argument testTech treats it as the module path and
derives the technology name from the path's basename with its module
extension stripped; with two arguments the given name and path are
used unchanged. -/
theorem testTech_arity_dispatch (mp n : String) :
    testTech (TestTechArgs.one mp) = ⟨stripModuleExt (basename mp), mp⟩ ∧
    testTech (TestTechArgs.two n mp) = ⟨n, mp⟩ ∧
    testTech (TestTechArgs.one "/abs/path/css.js") = ⟨"css", "/abs/path/css.js"⟩ := by
  refine ⟨rfl, rfl, ?_⟩
  decide
